import Mathlib

/-!
Verification of the voter CSV ingestion pipeline (Tech-Tandav/voters).

The definitions below are a shallow embedding of the Python source:
`voters/detail/utils/surname_extractor.py`, `voters/detail/utils/caste_mapper.py`,
`voters/detail/utils/csv_processor.py`, `voters/detail/models.py` and
`voters/detail/tasks.py`.  Pure Python functions become Lean functions; the
Django ORM store becomes an explicit list of records threaded through the
processing functions; pandas cells become an explicit `Cell` type with the
`int()` / `str()` / `pd.isna` dynamics spelled out; exceptions become
`Except`.
-/

namespace Voters

/-! ## Python string primitives -/

/-- Whitespace characters recognised by Python's `str.split()` / `str.strip()`
(ASCII fragment, which covers the data handled by the pipeline). -/
def isPySpace (c : Char) : Bool :=
  c == ' ' || c == '\t' || c == '\n' || c == '\r' || c == '\x0b' || c == '\x0c'

/-- Accumulator-based tokenizer: `splitWSAux l acc` processes `l`, with `acc`
holding the reversed prefix of the current token.  Together with `splitWS`
this embeds Python's `str.split()` (split on runs of whitespace, no empty
tokens). -/
def splitWSAux : List Char → List Char → List (List Char)
  | [], acc => if acc.isEmpty then [] else [acc.reverse]
  | c :: cs, acc =>
    if isPySpace c then
      if acc.isEmpty then splitWSAux cs []
      else acc.reverse :: splitWSAux cs []
    else splitWSAux cs (c :: acc)

/-- Embedding of Python `str.split()` (no separator argument). -/
def splitWS (l : List Char) : List (List Char) := splitWSAux l []

/-- Embedding of Python `' '.join(tokens)`. -/
def joinSp : List (List Char) → List Char
  | [] => []
  | [t] => t
  | t :: ts => t ++ ' ' :: joinSp ts

/-- Embedding of Python `str.strip()` (strip whitespace at both ends). -/
def pyStrip (l : List Char) : List Char :=
  ((l.dropWhile isPySpace).reverse.dropWhile isPySpace).reverse

/-- `str.strip()` on `String`. -/
def pyStripStr (s : String) : String := String.mk (pyStrip s.data)

/-- The trailing punctuation stripped by `extract_surname`
(`surname.rstrip(',;:!')` — periods deliberately not included). -/
def isTrailPunct (c : Char) : Bool :=
  c == ',' || c == ';' || c == ':' || c == '!'

/-- Embedding of Python `surname.rstrip(',;:!')`. -/
def pyRstripPunct (l : List Char) : List Char :=
  (l.reverse.dropWhile isTrailPunct).reverse

/-! ## `surname_extractor.py` -/

/-- Core of `extract_surname` on character lists, mirroring the source:
collapse whitespace with `' '.join(full_name.split())`, return `''` when
nothing is left, return the single token unchanged, otherwise the last token
with trailing `,;:!` stripped. -/
def extractSurnameL (l : List Char) : List Char :=
  let cleaned := joinSp (splitWS l)
  if cleaned.isEmpty then []
  else
    match splitWS cleaned with
    | [] => []
    | [p] => p
    | parts => pyRstripPunct (parts.getLastD [])

/-- `extract_surname(full_name)` from `surname_extractor.py`.  The `Option`
models Python's dynamic typing: `none` stands for a non-string argument
(`None`, a number, …), which the source maps to `''`, as it does the empty
string. -/
def extract_surname (full_name : Option String) : String :=
  match full_name with
  | none => ""
  | some s => if s = "" then "" else String.mk (extractSurnameL s.data)

/-- The static orthographic-variant table of `normalize_surname`. -/
def VARIATIONS : List (String × String) :=
  [("वुढाथोकी", "बुढाथोकी"), ("बि.क.", "वि.क."), ("बोहरा", "वोहरा")]

/-- `normalize_surname(surname)` from `surname_extractor.py`: empty input maps
to `''`; otherwise strip, then rewrite by the variation table when it
applies, else return the stripped input. -/
def normalize_surname (surname : String) : String :=
  if surname = "" then ""
  else
    let normalized := pyStripStr surname
    match (VARIATIONS.find? (fun p => p.1 = normalized)).map (·.2) with
    | some v => v
    | none => normalized

/-! ## Pandas / Python value dynamics

A CSV cell, as materialised by `pd.read_csv` / a Celery row dict: either a
string, an integer (numeric columns), or a missing value (`NaN`). -/

inductive Cell where
  | str (s : String)
  | num (n : Int)
  | nan
  deriving DecidableEq, Repr

/-- Embedding of Python `int(x)` on a string: strip whitespace, optional
sign, then a nonempty run of decimal digits; anything else raises
(`none`). -/
def digitsVal (ds : List Char) : Option Nat :=
  if ds.isEmpty then none
  else if ds.all Char.isDigit then
    some (ds.foldl (fun n c => n * 10 + (c.toNat - '0'.toNat)) 0)
  else none

/-- Python `int(s)` for a string argument. -/
def pyParseInt (s : String) : Option Int :=
  match pyStrip s.data with
  | '-' :: ds => (digitsVal ds).map (fun n => -(n : Int))
  | '+' :: ds => (digitsVal ds).map (fun n => (n : Int))
  | ds => (digitsVal ds).map (fun n => (n : Int))

/-- Python `int(cell)`: identity on numbers, strict parse on strings,
raises (`none`) on `NaN` (`int(float('nan'))` raises `ValueError`). -/
def pyIntCell : Cell → Option Int
  | .num n => some n
  | .nan => none
  | .str s => pyParseInt s

/-- Python `str(cell)`. -/
def pyStrCell : Cell → String
  | .str s => s
  | .num n => toString n
  | .nan => "nan"

/-- Embedding of `pd.isna`. -/
def pdIsna : Cell → Bool
  | .nan => true
  | _ => false

/-! ## `caste_mapper.py` -/

/-- One row of the `SurnameMapping` table (`models.py`): a surname
(unique across the table), its caste group, and the active flag. -/
structure SurnameMapping where
  surname : String
  caste_group : String
  is_active : Bool
  deriving DecidableEq, Repr

/-- `CasteMapper._load_mappings`: the cached dict is built from the active
mappings only (`SurnameMapping.objects.filter(is_active=True)`).  The dict is
modelled as an association list; `surname` is unique in the table, so keys do
not repeat. -/
def loadMappings (db : List SurnameMapping) : List (String × String) :=
  (db.filter (·.is_active)).map (fun m => (m.surname, m.caste_group))

/-- Python `dict.get`. -/
def dictGet (m : List (String × String)) (k : String) : Option String :=
  (m.find? (fun p => p.1 = k)).map (·.2)

/-- The linear fallback scan in `get_caste_group`
(`for key, value in self.mappings.items(): if key == surname: return value`),
followed by the final `return 'unknown'`. -/
def casteScan (m : List (String × String)) (surname : String) : String :=
  match m.find? (fun p => p.1 = surname) with
  | some p => p.2
  | none => "unknown"

/-- `CasteMapper.get_caste_group(surname)`: empty surname resolves to
`'unknown'`; otherwise a dict lookup (falling through on a falsy value, i.e.
the empty string), then the linear scan, then `'unknown'`. -/
def get_caste_group (m : List (String × String)) (surname : String) : String :=
  if surname = "" then "unknown"
  else
    match dictGet m surname with
    | some c => if c = "" then casteScan m surname else c
    | none => casteScan m surname

/-! ## `models.py` — the `Voter` model -/

/-- One persisted `Voter` record. -/
structure Voter where
  voter_id : Int
  name : String
  surname : String
  age : Int
  age_group : String
  gender : String
  caste_group : String
  province : String
  district : String
  constituency : Option String
  municipality : String
  ward : Int
  center : String
  spouse : Option String
  parent : Option String
  deriving DecidableEq, Repr

/-- The age-bracket computation inside `Voter.save` (`models.py`):
18–29 → `gen_z`, 30–45 → `working`, 46–60 → `mature`, else → `senior`. -/
def ageGroupOf (age : Int) : String :=
  if 18 ≤ age ∧ age ≤ 29 then "gen_z"
  else if 30 ≤ age ∧ age ≤ 45 then "working"
  else if 46 ≤ age ∧ age ≤ 60 then "mature"
  else "senior"

/-- `Voter.save`: recompute `age_group` from `age`, then persist. -/
def saveVoter (v : Voter) : Voter := { v with age_group := ageGroupOf v.age }

/-- The `MinValueValidator(18)` / `MaxValueValidator(150)` declared on
`Voter.age` in `models.py` (declared on the field; Django runs field
validators only through `full_clean`, which the ingestion path never
calls). -/
def ageValidatorOk (age : Int) : Bool := 18 ≤ age && age ≤ 150

/-- The `defaults={...}` dict passed to `Voter.objects.update_or_create` in
`CSVProcessor._process_row`: every `Voter` field except the natural key
`voter_id` and the derived `age_group`. -/
structure Defaults where
  name : String
  surname : String
  age : Int
  gender : String
  caste_group : String
  province : String
  district : String
  municipality : String
  ward : Int
  constituency : Option String
  center : String
  spouse : Option String
  parent : Option String
  deriving DecidableEq, Repr

/-- Applying the `defaults` dict to an existing record (the update arm of
`update_or_create`). -/
def applyDefaults (v : Voter) (d : Defaults) : Voter :=
  { v with
    name := d.name, surname := d.surname, age := d.age, gender := d.gender,
    caste_group := d.caste_group, province := d.province,
    district := d.district, municipality := d.municipality, ward := d.ward,
    constituency := d.constituency, center := d.center, spouse := d.spouse,
    parent := d.parent }

/-- The record built and saved by the create arm of `update_or_create`
(`age_group` is then set by `Voter.save`). -/
def mkVoter (vid : Int) (d : Defaults) : Voter :=
  saveVoter
    { voter_id := vid, name := d.name, surname := d.surname, age := d.age,
      age_group := "", gender := d.gender, caste_group := d.caste_group,
      province := d.province, district := d.district,
      municipality := d.municipality, ward := d.ward,
      constituency := d.constituency, center := d.center, spouse := d.spouse,
      parent := d.parent }

/-- The voter ids present in a store. -/
def ids (store : List Voter) : List Int := store.map (·.voter_id)

/-- `Voter.objects.update_or_create(voter_id=vid, defaults=d)` over an
explicit store: if a record with the natural key exists it is updated in
place (and re-saved, recomputing `age_group`), otherwise a new record is
created and saved. -/
def update_or_create (store : List Voter) (vid : Int) (d : Defaults) :
    List Voter :=
  if store.any (fun v => v.voter_id = vid) then
    store.map (fun v =>
      if v.voter_id = vid then saveVoter (applyDefaults v d) else v)
  else store ++ [mkVoter vid d]

/-! ## `csv_processor.py` -/

/-- `CSVProcessor.REQUIRED_COLUMNS`. -/
def REQUIRED_COLUMNS : List String :=
  ["Province", "District", "Municipality", "Ward", "Center",
   "VoterID", "Name", "Age", "Gender", "Spouse", "Parent"]

/-- `CSVProcessor.GENDER_MAPPING`. -/
def GENDER_MAPPING : List (String × String) :=
  [("पुरुष", "male"), ("महिला", "female"), ("अन्य", "other"),
   ("male", "male"), ("female", "female"), ("other", "other")]

/-- `self.GENDER_MAPPING.get(gender_nepali, 'other')`. -/
def genderLookup (g : String) : String :=
  ((GENDER_MAPPING.find? (fun p => p.1 = g)).map (·.2)).getD "other"

/-- One raw CSV row (a pandas `Series` / Celery row dict), one `Cell` per
required column. -/
structure Row where
  province : Cell
  district : Cell
  municipality : Cell
  ward : Cell
  center : Cell
  voterID : Cell
  name : Cell
  age : Cell
  gender : Cell
  spouse : Cell
  parent : Cell
  deriving DecidableEq, Repr

/-- Database calls observable in the embedding: the per-row
`update_or_create` issued by `_process_row`, the transaction entry/exit of
`transaction.atomic()`, and — for comparison with the specification — the
bulk calls the source never issues. -/
inductive DbOp where
  | begin_txn
  | commit_txn
  | upsert (vid : Int)
  | bulk_insert (n : Nat)
  | bulk_update (n : Nat)
  deriving DecidableEq, Repr

/-- Derived surname of a row: `extract_surname(str(row['Name']).strip())`. -/
def rowSurname (r : Row) : String :=
  extract_surname (some (pyStripStr (pyStrCell r.name)))

/-- Derived caste group of a row:
`map_surname_to_caste(normalize_surname(surname))` against the mapper's
dict. -/
def rowCaste (m : List (String × String)) (r : Row) : String :=
  get_caste_group m (normalize_surname (rowSurname r))

/-- Voter id of a row whose `VoterID` parses (`int(row['VoterID'])`). -/
def rowVid (r : Row) : Int := (pyIntCell r.voterID).getD 0

/-- The `defaults` dict `_process_row` passes to `update_or_create`,
assembled from the row, the mapper, and the optional
`province_override` / `constituency_override` attributes. -/
def defaultsOf (m : List (String × String)) (provOv constOv : Option String)
    (r : Row) : Defaults :=
  { name := pyStripStr (pyStrCell r.name)
    surname := rowSurname r
    age := (pyIntCell r.age).getD 0
    gender := genderLookup (pyStripStr (pyStrCell r.gender))
    caste_group := rowCaste m r
    province := match provOv with
      | some p => p
      | none => pyStrCell r.province
    district := pyStrCell r.district
    municipality := pyStrCell r.municipality
    ward := (pyIntCell r.ward).getD 0
    constituency := constOv
    center := pyStrCell r.center
    spouse := if pdIsna r.spouse || r.spouse == Cell.str "-" then none
              else some (pyStrCell r.spouse)
    parent := if pdIsna r.parent then none else some (pyStrCell r.parent) }

/-- `CSVProcessor._process_row(row)`.  Returns the updated store and the DB
calls made on success, or the raised exception's description on failure, and
in either case the updated `self.unmapped_surnames` set (a Python set,
modelled as a duplicate-free list in insertion order).  Failure points mirror
the source's evaluation order: `int(row['Age'])` first, then — after the
surname has been resolved and possibly recorded — `int(row['VoterID'])` and
`int(row['Ward'])` inside the `update_or_create` argument list. -/
def process_row (m : List (String × String)) (provOv constOv : Option String)
    (r : Row) (store : List Voter) (unmapped : List String) :
    Except String (List Voter × List DbOp) × List String :=
  match pyIntCell r.age with
  | none => (Except.error "invalid literal for int(): Age", unmapped)
  | some _ =>
    let surname := rowSurname r
    let caste := rowCaste m r
    let unmapped' := if caste = "unknown" then
        (if surname ∈ unmapped then unmapped else unmapped ++ [surname])
      else unmapped
    match pyIntCell r.voterID with
    | none => (Except.error "invalid literal for int(): VoterID", unmapped')
    | some vid =>
      match pyIntCell r.ward with
      | none => (Except.error "invalid literal for int(): Ward", unmapped')
      | some _ =>
        (Except.ok
          (update_or_create store vid (defaultsOf m provOv constOv r),
           [DbOp.upsert vid]), unmapped')

/-- Mutable state of one `CSVProcessor.process` run: the voter store, the
`unmapped_surnames` set, the two counters, `self.errors`, and the DB calls
made so far. -/
structure ProcState where
  store : List Voter
  unmapped : List String
  imported : Nat
  failed : Nat
  errors : List String
  trace : List DbOp
  deriving Repr

/-- One iteration of the `for index, row in self.df.iterrows()` loop in
`CSVProcessor.process`: run `_process_row`, incrementing `imported_count` on
success and `error_count` (recording `f"Row {index + 2}: {e}"`) on a caught
exception. -/
def stepRow (m : List (String × String)) (provOv constOv : Option String)
    (st : ProcState) (ir : Nat × Row) : ProcState :=
  match process_row m provOv constOv ir.2 st.store st.unmapped with
  | (Except.ok (store', ops), unmapped') =>
    { st with
      store := store', unmapped := unmapped',
      imported := st.imported + 1, trace := st.trace ++ ops }
  | (Except.error e, unmapped') =>
    { st with
      unmapped := unmapped', failed := st.failed + 1,
      errors := st.errors ++ ["Row " ++ toString (ir.1 + 2) ++ ": " ++ e] }

/-- The row loop of `CSVProcessor.process` over enumerated rows. -/
def processRows (m : List (String × String)) (provOv constOv : Option String)
    (irs : List (Nat × Row)) (st : ProcState) : ProcState :=
  irs.foldl (stepRow m provOv constOv) st

/-- Fresh per-run processor state over a given store
(`self.errors = []`, `self.unmapped_surnames = set()`). -/
def initState (store : List Voter) : ProcState :=
  { store := store, unmapped := [], imported := 0, failed := 0,
    errors := [], trace := [] }

/-- Processing a batch of rows against a store and returning the resulting
store (the row loop of `process`, which is also what reprocessing the same
batch on a retry performs). -/
def runBatch (m : List (String × String)) (provOv constOv : Option String)
    (batch : List Row) (store : List Voter) : List Voter :=
  (processRows m provOv constOv batch.enum (initState store)).store

/-- A loaded CSV file as `pd.read_csv` materialises it: the column names and
the rows. -/
structure Df where
  columns : List String
  rows : List Row
  deriving Repr

/-- A cell of a pandas numeric-dtype column: a number or a missing value
(`NaN`); any textual cell forces object dtype. -/
def isNumCell : Cell → Bool
  | .num _ => true
  | .nan => true
  | .str _ => false

/-- `pd.api.types.is_numeric_dtype` for a materialised column. -/
def numericDtype (col : List Cell) : Bool := col.all isNumCell

/-- `', '.join(...)`. -/
def joinComma (l : List String) : String := String.intercalate ", " l

/-- `CSVProcessor.validate_csv`: `(is_valid, error_message)`, with each check
in source order — emptiness, required columns, numeric dtype of `Age` and
`VoterID`, and null scans of `Name`, `Age`, `Gender`. -/
def validate_csv (df : Df) : Bool × Option String :=
  if df.rows.isEmpty then (false, some "CSV file is empty")
  else if (REQUIRED_COLUMNS.filter (fun c => c ∉ df.columns)) ≠ [] then
    (false, some ("Missing required columns: " ++
      joinComma (REQUIRED_COLUMNS.filter (fun c => c ∉ df.columns))))
  else if ¬ numericDtype (df.rows.map (·.age)) then
    (false, some "Age column must contain numeric values")
  else if ¬ numericDtype (df.rows.map (·.voterID)) then
    (false, some "VoterID column must contain numeric values")
  else if (df.rows.map (·.name)).any pdIsna then
    (false, some "Name column contains empty values")
  else if (df.rows.map (·.age)).any pdIsna then
    (false, some "Age column contains empty values")
  else if (df.rows.map (·.gender)).any pdIsna then
    (false, some "Gender column contains empty values")
  else (true, none)

/-- The dict returned by `CSVProcessor.process`. -/
structure ProcessResult where
  success : Bool
  error : Option String
  total : Nat
  imported : Nat
  failed : Nat
  unmapped_surnames : List String
  errors : List String
  deriving Repr

/-- One `UploadHistory` row (`models.py`), as finalised by `process`. -/
structure UploadHistory where
  file_name : String
  total_records : Nat
  success_count : Nat
  error_count : Nat
  status : String
  error_log : Option String
  unmapped_surnames : List String
  deriving Repr

/-- `CSVProcessor.process()`: validate the file (fast-failing with an
unsuccessful result and untouched store/ledger before any per-row work),
otherwise create the `UploadHistory` record and run every row through
`_process_row` inside one `transaction.atomic()` block, counting each row as
imported or failed, then finalise the history record.  Returns the result
dict, the voter store, the upload-history ledger, and the DB write trace
(`begin_txn`/`commit_txn` delimit the atomic block). -/
def process (m : List (String × String)) (provOv constOv : Option String)
    (file_name : String) (df : Df) (store : List Voter)
    (ledger : List UploadHistory) :
    ProcessResult × List Voter × List UploadHistory × List DbOp :=
  match validate_csv df with
  | (false, errMsg) =>
    ({ success := false, error := errMsg, total := 0, imported := 0,
       failed := 0, unmapped_surnames := [], errors := [] },
     store, ledger, [])
  | (true, _) =>
    let st := processRows m provOv constOv df.rows.enum (initState store)
    let hist : UploadHistory :=
      { file_name := file_name, total_records := df.rows.length,
        success_count := st.imported, error_count := st.failed,
        status := "completed",
        error_log := if st.errors.isEmpty then none
                     else some (String.intercalate "\n" st.errors),
        unmapped_surnames := st.unmapped }
    ({ success := true, error := none, total := df.rows.length,
       imported := st.imported, failed := st.failed,
       unmapped_surnames := st.unmapped, errors := st.errors },
     st.store, ledger ++ [hist],
     DbOp.begin_txn :: st.trace ++ [DbOp.commit_txn])

/-! ## `tasks.py` -/

/-- `BATCH_SIZE` in `import_voters_csv`. -/
def BATCH_SIZE : Nat := 1000

/-- Python `range(start, stop, step)` for a positive step: the arithmetic
progression `start, start+step, …` strictly below `stop`. -/
def pyRange (start stop step : Nat) : List Nat :=
  (List.range ((stop - start + step - 1) / step)).map (fun k => start + k * step)

/-- The chunking generator of `import_voters_csv`:
`(rows[i:i + BATCH_SIZE] for i in range(0, len(rows), BATCH_SIZE))`, with a
Python slice `l[i:i+B]` embedded as `(l.drop i).take B`. -/
def chunkList (l : List α) (B : Nat) : List (List α) :=
  (pyRange 0 l.length B).map (fun i => (l.drop i).take B)

/-- One queued `import_voters_csv_chunk` job signature. -/
structure ChunkJob where
  rows : List Row
  province : String
  constituency : String
  user_id : Option Nat
  deriving DecidableEq, Repr

/-- The descriptor dict returned by `import_voters_csv`. -/
structure JobDescriptor where
  file : String
  province : String
  constituency : String
  chunks : Nat
  deriving DecidableEq, Repr

/-- The attributes defined on the `CSVProcessor` class in
`csv_processor.py`: `__init__`, `validate_csv`, `process`, `_process_row`,
plus the class attributes `REQUIRED_COLUMNS` and `GENDER_MAPPING`.  Notably
absent: `read_rows` and `process_batch`, which `tasks.py` calls but which are
defined nowhere in the repository. -/
def CSVProcessorMethods : List String :=
  ["__init__", "validate_csv", "process", "_process_row",
   "REQUIRED_COLUMNS", "GENDER_MAPPING"]

/-- Embedding of the attribute access `CSVProcessor.read_rows(file_path)` in
`import_voters_csv` (`tasks.py`): Python resolves the name on the class at
call time, and since no `read_rows` is defined anywhere in the repository the
lookup raises `AttributeError` before anything is read.  `fileRows` carries
the row set the file holds — what the method would presumably return if it
existed — but the lookup fails first on every input. -/
def read_rows (fileRows : List Row) : Except String (List Row) :=
  if "read_rows" ∈ CSVProcessorMethods then Except.ok fileRows
  else Except.error
    "AttributeError: type object 'CSVProcessor' has no attribute 'read_rows'"

/-- `import_voters_csv(file_path, province, constituency, user_id)` from
`tasks.py`: its first statement is
`rows = CSVProcessor.read_rows(file_path)`; only if that succeeded would it
chunk the rows into `BATCH_SIZE`-row batches, enqueue one chunk job per
batch, and return the descriptor (the dispatched job list is returned
explicitly).  An uncaught exception makes the task fail with no job
dispatched, modelled by `Except.error`. -/
def import_voters_csv (file_path : String) (fileRows : List Row)
    (province constituency : String) (user_id : Option Nat) :
    Except String (List ChunkJob × JobDescriptor) :=
  match read_rows fileRows with
  | Except.error e => Except.error e
  | Except.ok rows =>
    let jobs := (chunkList rows BATCH_SIZE).map
      (fun batch => ChunkJob.mk batch province constituency user_id)
    Except.ok (jobs,
      { file := file_path, province := province,
        constituency := constituency, chunks := jobs.length })

/-- Celery retry configuration of a task, as set by the `@shared_task`
decorator: the exception names in `autoretry_for` and
`retry_kwargs={'max_retries': …}`, plus `retry_backoff` (not passed in the
source, so Celery's default `False`). -/
structure TaskRetryConfig where
  autoretry_for : List String
  max_retries : Nat
  retry_backoff : Bool
  deriving DecidableEq, Repr

/-- The decorator of `import_voters_csv_chunk` in `tasks.py`:
`@shared_task(bind=True, autoretry_for=(), retry_kwargs={'max_retries': 0})`. -/
def chunkTaskRetryConfig : TaskRetryConfig :=
  { autoretry_for := [], max_retries := 0, retry_backoff := false }

/-- Celery autoretry semantics for such a configuration: an exception
escaping the task body triggers automatic retries only when its type is
listed in `autoretry_for`, and then at most `max_retries` times; the task
body of `import_voters_csv_chunk` re-raises every exception and never calls
`self.retry` itself. -/
def automaticRetries (cfg : TaskRetryConfig) (excType : String) : Nat :=
  if excType ∈ cfg.autoretry_for then cfg.max_retries else 0

/-- A row on which `_process_row` raises no exception: all three `int(...)`
conversions (`Age`, `VoterID`, `Ward`) succeed. -/
def validRowB (r : Row) : Bool :=
  (pyIntCell r.age).isSome && (pyIntCell r.voterID).isSome &&
    (pyIntCell r.ward).isSome

/-- The retry behaviour §5 of the spec claims for a failed chunk job
(spec-side definition, stated from the claim's words for comparison with
`chunkTaskRetryConfig`): every failing execution is retried automatically
(a positive retry budget for every exception type) with exponential
backoff. -/
def specChunkRetryPolicy (cfg : TaskRetryConfig) : Prop :=
  (∀ excType : String, 0 < automaticRetries cfg excType) ∧
    cfg.retry_backoff = true

/-- How many `DbOp.bulk_insert` calls a DB trace contains. -/
def countBulkInserts (t : List DbOp) : Nat :=
  (t.filter (fun op => match op with | .bulk_insert _ => true | _ => false)).length

/-- How many `DbOp.bulk_update` calls a DB trace contains. -/
def countBulkUpdates (t : List DbOp) : Nat :=
  (t.filter (fun op => match op with | .bulk_update _ => true | _ => false)).length

/-- How many single-row `update_or_create` calls a DB trace contains. -/
def countRowUpserts (t : List DbOp) : Nat :=
  (t.filter (fun op => match op with | .upsert _ => true | _ => false)).length

/-- The commit shape §4.4 of the spec claims for a batch (spec-side
definition, stated from the claim's words for comparison with the trace the
code produces): when the batch creates records, the insert side is one
bulk-insert call — not per-row writes. -/
def specBulkCommitShape (t : List DbOp) (inserted : Nat) : Prop :=
  0 < inserted → countBulkInserts t = 1 ∧ countRowUpserts t = 0

/-- A well-formed raw row used for concrete witnesses. -/
def sampleRow : Row :=
  { province := Cell.str "P1", district := Cell.str "D1",
    municipality := Cell.str "M1", ward := Cell.num 1,
    center := Cell.str "C1", voterID := Cell.num 11,
    name := Cell.str "Ram Thapa", age := Cell.num 30,
    gender := Cell.str "male", spouse := Cell.nan, parent := Cell.nan }

/-- The record `sampleRow` produces on an empty store. -/
def sampleVoter : Voter :=
  { voter_id := 11, name := "Ram Thapa", surname := "Thapa", age := 30,
    age_group := "working", gender := "male", caste_group := "unknown",
    province := "P1", district := "D1", constituency := none,
    municipality := "M1", ward := 1, center := "C1", spouse := none,
    parent := none }

/-- A row whose `Ward` cell is missing, so that `int(row['Ward'])` raises
inside `_process_row` even though the file passes `validate_csv` (which never
inspects `Ward`). -/
def badWardRow : Row :=
  { sampleRow with ward := Cell.nan, voterID := Cell.num 12 }

/-- A one-good-row CSV file. -/
def oneRowDf : Df := { columns := REQUIRED_COLUMNS, rows := [sampleRow] }

/-- A CSV file with one good and one per-row-failing row. -/
def mixedDf : Df := { columns := REQUIRED_COLUMNS, rows := [sampleRow, badWardRow] }

/-- A CSV file missing most required columns. -/
def missingColsDf : Df := { columns := ["Province"], rows := [sampleRow] }

/-- A raw row whose `Age` is the integer 17: it parses fine, passes no range
check anywhere on the ingestion path, and is handed to `update_or_create`. -/
def underageRow : Row :=
  { province := Cell.str "Bagmati", district := Cell.str "Kathmandu",
    municipality := Cell.str "KMC", ward := Cell.num 5,
    center := Cell.str "Center-1", voterID := Cell.num 101,
    name := Cell.str "राम बहादुर थापा", age := Cell.num 17,
    gender := Cell.str "महिला", spouse := Cell.str "-", parent := Cell.nan }

/-- The record the pipeline persists for `underageRow`: age 17, bracketed
`senior` by the fall-through `else` of `Voter.save`. -/
def underageVoter : Voter :=
  { voter_id := 101, name := "राम बहादुर थापा", surname := "थापा", age := 17,
    age_group := "senior", gender := "female", caste_group := "unknown",
    province := "Bagmati", district := "Kathmandu", constituency := none,
    municipality := "KMC", ward := 5, center := "Center-1", spouse := none,
    parent := none }

/-- A second well-formed raw row with a distinct voter id. -/
def secondRow : Row :=
  { sampleRow with voterID := Cell.num 12, name := Cell.str "Sita Magar" }

/-- A two-fresh-rows CSV file (both rows are inserts on an empty store). -/
def twoRowDf : Df :=
  { columns := REQUIRED_COLUMNS, rows := [sampleRow, secondRow] }

/-! ## Store-level lemmas -/

theorem voterId_saveVoter (v : Voter) : (saveVoter v).voter_id = v.voter_id :=
  rfl

theorem age_saveVoter (v : Voter) : (saveVoter v).age = v.age := rfl

theorem ageGroup_saveVoter (v : Voter) :
    (saveVoter v).age_group = ageGroupOf v.age := rfl

theorem voterId_applyDefaults (v : Voter) (d : Defaults) :
    (applyDefaults v d).voter_id = v.voter_id := rfl

theorem voterId_mkVoter (vid : Int) (d : Defaults) :
    (mkVoter vid d).voter_id = vid := rfl

theorem any_eq_mem_ids (store : List Voter) (vid : Int) :
    (store.any (fun v => v.voter_id = vid)) = true ↔ vid ∈ ids store := by
  simp only [List.any_eq_true, decide_eq_true_eq, ids, List.mem_map]

theorem update_or_create_of_mem (store : List Voter) (vid : Int)
    (d : Defaults) (h : vid ∈ ids store) :
    update_or_create store vid d =
      store.map (fun v =>
        if v.voter_id = vid then saveVoter (applyDefaults v d) else v) := by
  have ha := (any_eq_mem_ids store vid).mpr h
  simp [update_or_create, ha]

theorem update_or_create_of_not_mem (store : List Voter) (vid : Int)
    (d : Defaults) (h : ¬ vid ∈ ids store) :
    update_or_create store vid d = store ++ [mkVoter vid d] := by
  have ha : ¬ (store.any (fun v => v.voter_id = vid)) = true :=
    fun hc => h ((any_eq_mem_ids store vid).mp hc)
  simp only [Bool.not_eq_true] at ha
  simp [update_or_create, ha]

theorem ids_update_or_create (store : List Voter) (vid : Int) (d : Defaults) :
    ids (update_or_create store vid d) =
      if vid ∈ ids store then ids store else ids store ++ [vid] := by
  by_cases h : vid ∈ ids store
  · rw [update_or_create_of_mem store vid d h, if_pos h]
    unfold ids
    rw [List.map_map]
    apply List.map_congr_left
    intro v _
    by_cases hv : v.voter_id = vid <;>
      simp [hv, Function.comp, voterId_saveVoter, voterId_applyDefaults]
  · rw [update_or_create_of_not_mem store vid d h, if_neg h]
    simp [ids, voterId_mkVoter]

theorem mem_ids_update_or_create (store : List Voter) (vid : Int)
    (d : Defaults) : vid ∈ ids (update_or_create store vid d) := by
  rw [ids_update_or_create]
  by_cases h : vid ∈ ids store <;> simp [h]

theorem ids_update_or_create_subset (store : List Voter) (vid x : Int)
    (d : Defaults) (hx : x ∈ ids store) :
    x ∈ ids (update_or_create store vid d) := by
  rw [ids_update_or_create]
  by_cases h : vid ∈ ids store <;> simp [h, hx]

theorem ids_update_or_create_of_mem (store : List Voter) (vid : Int)
    (d : Defaults) (h : vid ∈ ids store) :
    ids (update_or_create store vid d) = ids store := by
  rw [ids_update_or_create, if_pos h]

theorem nodup_ids_update_or_create (store : List Voter) (vid : Int)
    (d : Defaults) (h : (ids store).Nodup) :
    (ids (update_or_create store vid d)).Nodup := by
  rw [ids_update_or_create]
  by_cases hm : vid ∈ ids store
  · simpa [hm]
  · simp [hm, List.nodup_append, h]

theorem mem_update_or_create (store : List Voter) (vid : Int) (d : Defaults)
    (v : Voter) (hv : v ∈ update_or_create store vid d) :
    v ∈ store ∨ v.age_group = ageGroupOf v.age := by
  by_cases h : vid ∈ ids store
  · rw [update_or_create_of_mem store vid d h] at hv
    rcases List.mem_map.mp hv with ⟨w, hw, hwv⟩
    by_cases hcond : w.voter_id = vid
    · right
      rw [if_pos hcond] at hwv
      rw [← hwv, ageGroup_saveVoter, age_saveVoter]
    · left
      rw [if_neg hcond] at hwv
      rw [← hwv]
      exact hw
  · rw [update_or_create_of_not_mem store vid d h] at hv
    rcases List.mem_append.mp hv with h1 | h1
    · exact Or.inl h1
    · right
      rcases List.mem_singleton.mp h1 with rfl
      rw [mkVoter, ageGroup_saveVoter, age_saveVoter]

/-! ## Lemmas about one row-loop iteration -/

theorem stepRow_store (m : List (String × String)) (pOv cOv : Option String)
    (st : ProcState) (ir : Nat × Row) :
    (stepRow m pOv cOv st ir).store =
      if validRowB ir.2 = true then
        update_or_create st.store (rowVid ir.2) (defaultsOf m pOv cOv ir.2)
      else st.store := by
  rcases ha : pyIntCell ir.2.age with _ | a
  · simp [stepRow, process_row, validRowB, ha]
  · rcases hv : pyIntCell ir.2.voterID with _ | vid
    · simp [stepRow, process_row, validRowB, ha, hv]
    · rcases hw : pyIntCell ir.2.ward with _ | w
      · simp [stepRow, process_row, validRowB, ha, hv, hw]
      · simp [stepRow, process_row, validRowB, ha, hv, hw, rowVid]

theorem stepRow_unmapped_mono (m : List (String × String))
    (pOv cOv : Option String) (st : ProcState) (ir : Nat × Row) (x : String)
    (hx : x ∈ st.unmapped) : x ∈ (stepRow m pOv cOv st ir).unmapped := by
  have hadd : ∀ u : List String, ∀ s : String, x ∈ u →
      x ∈ (if rowCaste m ir.2 = "unknown" then
            (if s ∈ u then u else u ++ [s]) else u) := by
    intro u s hu
    by_cases hc : rowCaste m ir.2 = "unknown" <;>
      by_cases hs : s ∈ u <;> simp [hc, hs, hu]
  rcases ha : pyIntCell ir.2.age with _ | a
  · simpa [stepRow, process_row, ha] using hx
  · rcases hv : pyIntCell ir.2.voterID with _ | vid
    · simpa [stepRow, process_row, ha, hv] using hadd st.unmapped _ hx
    · rcases hw : pyIntCell ir.2.ward with _ | w
      · simpa [stepRow, process_row, ha, hv, hw] using hadd st.unmapped _ hx
      · simpa [stepRow, process_row, ha, hv, hw] using hadd st.unmapped _ hx

theorem stepRow_unmapped_adds (m : List (String × String))
    (pOv cOv : Option String) (st : ProcState) (ir : Nat × Row)
    (hage : (pyIntCell ir.2.age).isSome = true)
    (hcaste : rowCaste m ir.2 = "unknown") :
    rowSurname ir.2 ∈ (stepRow m pOv cOv st ir).unmapped := by
  have hadd : ∀ u : List String,
      rowSurname ir.2 ∈ (if rowCaste m ir.2 = "unknown" then
        (if rowSurname ir.2 ∈ u then u else u ++ [rowSurname ir.2]) else u) := by
    intro u
    by_cases hs : rowSurname ir.2 ∈ u <;> simp [hcaste, hs]
  rcases ha : pyIntCell ir.2.age with _ | a
  · simp [ha] at hage
  · rcases hv : pyIntCell ir.2.voterID with _ | vid
    · simpa [stepRow, process_row, ha, hv] using hadd st.unmapped
    · rcases hw : pyIntCell ir.2.ward with _ | w
      · simpa [stepRow, process_row, ha, hv, hw] using hadd st.unmapped
      · simpa [stepRow, process_row, ha, hv, hw] using hadd st.unmapped

theorem stepRow_counts (m : List (String × String)) (pOv cOv : Option String)
    (st : ProcState) (ir : Nat × Row) :
    (stepRow m pOv cOv st ir).imported + (stepRow m pOv cOv st ir).failed =
      st.imported + st.failed + 1 := by
  rcases ha : pyIntCell ir.2.age with _ | a
  · simp [stepRow, process_row, ha]; omega
  · rcases hv : pyIntCell ir.2.voterID with _ | vid
    · simp [stepRow, process_row, ha, hv]; omega
    · rcases hw : pyIntCell ir.2.ward with _ | w
      · simp [stepRow, process_row, ha, hv, hw]; omega
      · simp [stepRow, process_row, ha, hv, hw]; omega

theorem stepRow_trace_imported (m : List (String × String))
    (pOv cOv : Option String) (st : ProcState) (ir : Nat × Row) :
    ∃ ops : List DbOp, (stepRow m pOv cOv st ir).trace = st.trace ++ ops ∧
      (∀ op ∈ ops, ∃ vid, op = DbOp.upsert vid) ∧
      (stepRow m pOv cOv st ir).imported = st.imported + ops.length := by
  rcases ha : pyIntCell ir.2.age with _ | a
  · exact ⟨[], by simp [stepRow, process_row, ha]⟩
  · rcases hv : pyIntCell ir.2.voterID with _ | vid
    · exact ⟨[], by simp [stepRow, process_row, ha, hv]⟩
    · rcases hw : pyIntCell ir.2.ward with _ | w
      · exact ⟨[], by simp [stepRow, process_row, ha, hv, hw]⟩
      · exact ⟨[DbOp.upsert vid], by simp [stepRow, process_row, ha, hv, hw]⟩

theorem stepRow_mem_store (m : List (String × String))
    (pOv cOv : Option String) (st : ProcState) (ir : Nat × Row) (v : Voter)
    (hv : v ∈ (stepRow m pOv cOv st ir).store) :
    v ∈ st.store ∨ v.age_group = ageGroupOf v.age := by
  rw [stepRow_store] at hv
  by_cases hval : validRowB ir.2 = true
  · rw [if_pos hval] at hv
    exact mem_update_or_create _ _ _ _ hv
  · rw [if_neg hval] at hv
    exact Or.inl hv

/-! ## Lemmas about the row loop -/

theorem processRows_nil (m : List (String × String)) (pOv cOv : Option String)
    (st : ProcState) : processRows m pOv cOv [] st = st := rfl

theorem processRows_cons (m : List (String × String))
    (pOv cOv : Option String) (p : Nat × Row) (ps : List (Nat × Row))
    (st : ProcState) :
    processRows m pOv cOv (p :: ps) st =
      processRows m pOv cOv ps (stepRow m pOv cOv st p) := rfl

theorem processRows_store_mono (m : List (String × String))
    (pOv cOv : Option String) (irs : List (Nat × Row)) (st : ProcState)
    (x : Int) (hx : x ∈ ids st.store) :
    x ∈ ids (processRows m pOv cOv irs st).store := by
  induction irs generalizing st with
  | nil => exact hx
  | cons p ps ih =>
    rw [processRows_cons]
    apply ih
    rw [stepRow_store]
    by_cases hval : validRowB p.2 = true
    · rw [if_pos hval]
      exact ids_update_or_create_subset _ _ _ _ hx
    · rw [if_neg hval]
      exact hx

theorem processRows_nodup (m : List (String × String))
    (pOv cOv : Option String) (irs : List (Nat × Row)) (st : ProcState)
    (h : (ids st.store).Nodup) :
    (ids (processRows m pOv cOv irs st).store).Nodup := by
  induction irs generalizing st with
  | nil => exact h
  | cons p ps ih =>
    rw [processRows_cons]
    apply ih
    rw [stepRow_store]
    by_cases hval : validRowB p.2 = true
    · rw [if_pos hval]
      exact nodup_ids_update_or_create _ _ _ h
    · rw [if_neg hval]
      exact h

theorem processRows_mem_vid (m : List (String × String))
    (pOv cOv : Option String) (irs : List (Nat × Row)) (st : ProcState)
    (p : Nat × Row) (hp : p ∈ irs) (hv : validRowB p.2 = true) :
    rowVid p.2 ∈ ids (processRows m pOv cOv irs st).store := by
  induction irs generalizing st with
  | nil => cases hp
  | cons q qs ih =>
    rw [processRows_cons]
    rcases List.mem_cons.mp hp with rfl | hmem
    · apply processRows_store_mono
      rw [stepRow_store, if_pos hv]
      exact mem_ids_update_or_create _ _ _
    · exact ih _ hmem

theorem processRows_ids_stable (m : List (String × String))
    (pOv cOv : Option String) (irs : List (Nat × Row)) (st : ProcState)
    (h : ∀ p ∈ irs, rowVid p.2 ∈ ids st.store) :
    ids (processRows m pOv cOv irs st).store = ids st.store := by
  induction irs generalizing st with
  | nil => rfl
  | cons p ps ih =>
    rw [processRows_cons]
    have hstep : ids (stepRow m pOv cOv st p).store = ids st.store := by
      rw [stepRow_store]
      by_cases hval : validRowB p.2 = true
      · rw [if_pos hval]
        exact ids_update_or_create_of_mem _ _ _ (h p (List.mem_cons_self p ps))
      · rw [if_neg hval]
    rw [ih _ (fun q hq => by rw [hstep]; exact h q (List.mem_cons_of_mem p hq))]
    exact hstep

theorem processRows_unmapped_mono (m : List (String × String))
    (pOv cOv : Option String) (irs : List (Nat × Row)) (st : ProcState)
    (x : String) (hx : x ∈ st.unmapped) :
    x ∈ (processRows m pOv cOv irs st).unmapped := by
  induction irs generalizing st with
  | nil => exact hx
  | cons p ps ih =>
    rw [processRows_cons]
    exact ih _ (stepRow_unmapped_mono _ _ _ _ _ _ hx)

theorem processRows_unmapped_adds (m : List (String × String))
    (pOv cOv : Option String) (irs : List (Nat × Row)) (st : ProcState)
    (p : Nat × Row) (hp : p ∈ irs)
    (hage : (pyIntCell p.2.age).isSome = true)
    (hcaste : rowCaste m p.2 = "unknown") :
    rowSurname p.2 ∈ (processRows m pOv cOv irs st).unmapped := by
  induction irs generalizing st with
  | nil => cases hp
  | cons q qs ih =>
    rw [processRows_cons]
    rcases List.mem_cons.mp hp with rfl | hmem
    · exact processRows_unmapped_mono _ _ _ _ _ _
        (stepRow_unmapped_adds _ _ _ _ _ hage hcaste)
    · exact ih _ hmem

theorem processRows_counts (m : List (String × String))
    (pOv cOv : Option String) (irs : List (Nat × Row)) (st : ProcState) :
    (processRows m pOv cOv irs st).imported +
        (processRows m pOv cOv irs st).failed =
      st.imported + st.failed + irs.length := by
  induction irs generalizing st with
  | nil => rfl
  | cons p ps ih =>
    rw [processRows_cons, ih _, stepRow_counts]
    simp [List.length_cons]
    omega

theorem processRows_trace_imported (m : List (String × String))
    (pOv cOv : Option String) (irs : List (Nat × Row)) (st : ProcState) :
    ∃ ops : List DbOp,
      (processRows m pOv cOv irs st).trace = st.trace ++ ops ∧
      (∀ op ∈ ops, ∃ vid, op = DbOp.upsert vid) ∧
      (processRows m pOv cOv irs st).imported = st.imported + ops.length := by
  induction irs generalizing st with
  | nil => exact ⟨[], by simp [processRows_nil]⟩
  | cons p ps ih =>
    rw [processRows_cons]
    rcases stepRow_trace_imported m pOv cOv st p with ⟨ops₁, h₁, hops₁, hi₁⟩
    rcases ih (stepRow m pOv cOv st p) with ⟨ops₂, h₂, hops₂, hi₂⟩
    refine ⟨ops₁ ++ ops₂, ?_, ?_, ?_⟩
    · rw [h₂, h₁, List.append_assoc]
    · intro op hop
      rcases List.mem_append.mp hop with h | h
      · exact hops₁ op h
      · exact hops₂ op h
    · rw [hi₂, hi₁, List.length_append]
      omega

theorem processRows_mem_store (m : List (String × String))
    (pOv cOv : Option String) (irs : List (Nat × Row)) (st : ProcState)
    (v : Voter) (hv : v ∈ (processRows m pOv cOv irs st).store) :
    v ∈ st.store ∨ v.age_group = ageGroupOf v.age := by
  induction irs generalizing st with
  | nil => exact Or.inl hv
  | cons p ps ih =>
    rw [processRows_cons] at hv
    rcases ih _ hv with h | h
    · exact stepRow_mem_store _ _ _ _ _ _ h
    · exact Or.inr h

theorem snd_mem_of_mem_enum {α : Type} {l : List α} {p : Nat × α}
    (hp : p ∈ l.enum) : p.2 ∈ l := by
  have h := List.mem_map_of_mem Prod.snd hp
  rwa [List.enum_map_snd] at h

/-! ## Claim C2 -/

/-- Claim C2: for every voter record write (insert or update), the persisted
`age_group` equals the pure function `ageGroupOf` of the persisted `age`
(18–29 → `gen_z`, 30–45 → `working`, 46–60 → `mature`, otherwise `senior`),
recomputed on every write by `Voter.save` and never taken from input: every
record in the store after a `process` run either was already in the store
untouched or satisfies the invariant. -/
theorem claim_c2_age_group_pure_function (m : List (String × String))
    (pOv cOv : Option String) (fn : String) (df : Df) (store : List Voter)
    (ledger : List UploadHistory) (v : Voter)
    (hv : v ∈ (process m pOv cOv fn df store ledger).2.1) :
    (v ∈ store ∨ v.age_group = ageGroupOf v.age) ∧
    (∀ a : Int,
      ((18 ≤ a ∧ a ≤ 29) → ageGroupOf a = "gen_z") ∧
      ((30 ≤ a ∧ a ≤ 45) → ageGroupOf a = "working") ∧
      ((46 ≤ a ∧ a ≤ 60) → ageGroupOf a = "mature") ∧
      (¬ (18 ≤ a ∧ a ≤ 60) → ageGroupOf a = "senior")) := by
  constructor
  · rcases hval : validate_csv df with ⟨b, msg⟩
    cases b
    · simp only [process, hval] at hv
      exact Or.inl hv
    · simp only [process, hval] at hv
      exact processRows_mem_store _ _ _ _ _ _ hv
  · intro a
    refine ⟨fun h => ?_, fun h => ?_, fun h => ?_, fun h => ?_⟩ <;>
    · unfold ageGroupOf
      split_ifs <;> first | rfl | omega

/-- Witness for C2 at a concrete run: the single record produced by a
one-row file satisfies the invariant. -/
theorem claim_c2_witness :
    (sampleVoter ∈ ([] : List Voter) ∨
      sampleVoter.age_group = ageGroupOf sampleVoter.age) ∧
    (∀ a : Int,
      ((18 ≤ a ∧ a ≤ 29) → ageGroupOf a = "gen_z") ∧
      ((30 ≤ a ∧ a ≤ 45) → ageGroupOf a = "working") ∧
      ((46 ≤ a ∧ a ≤ 60) → ageGroupOf a = "mature") ∧
      (¬ (18 ≤ a ∧ a ≤ 60) → ageGroupOf a = "senior")) :=
  claim_c2_age_group_pure_function [] none none "f.csv" oneRowDf [] []
    sampleVoter (by decide)

/-! ## Claim C4 -/

/-- Claim C4 (code bug evidence): the claim says a row whose age is an
integer outside [18,150] — e.g. 17 — fails row validation, is counted as a
failure, and is not persisted.  The code disagrees: `_process_row` only runs
`int(row['Age'])`, the `MinValueValidator(18)` declared on `Voter.age` is
never executed on this path, and the age-17 row is persisted (bracketed
`senior`) and counted as imported. -/
theorem claim_c4_bug_underage_row_persisted :
    process_row [] none none underageRow [] [] =
      (Except.ok ([underageVoter], [DbOp.upsert 101]), ["थापा"]) ∧
    underageVoter.age = 17 ∧
    ageValidatorOk underageVoter.age = false ∧
    underageVoter.age_group = "senior" ∧
    (stepRow [] none none (initState []) (0, underageRow)).imported = 1 ∧
    (stepRow [] none none (initState []) (0, underageRow)).failed = 0 ∧
    (stepRow [] none none (initState []) (0, underageRow)).store =
      [underageVoter] := by
  refine ⟨by rfl, rfl, by decide, rfl, by decide, by decide, by decide⟩

/-! ## Claim C5 -/

/-- Claim C5: a CSV file that fails schema validation is rejected before any
per-row processing — `process` returns an unsuccessful result carrying the
validation error message, writes no voter record (store unchanged, empty DB
trace), and touches no upload-history record. -/
theorem claim_c5_invalid_file_fast_fail (m : List (String × String))
    (pOv cOv : Option String) (fn : String) (df : Df) (store : List Voter)
    (ledger : List UploadHistory) (h : (validate_csv df).1 = false) :
    process m pOv cOv fn df store ledger =
      ({ success := false, error := (validate_csv df).2, total := 0,
         imported := 0, failed := 0, unmapped_surnames := [], errors := [] },
       store, ledger, []) := by
  rcases hval : validate_csv df with ⟨b, msg⟩
  cases b
  · simp [process, hval]
  · rw [hval] at h
    simp at h

/-- Witness for C5 at a concrete file with missing columns. -/
theorem claim_c5_witness :
    process [] none none "bad.csv" missingColsDf [sampleVoter] [] =
      ({ success := false, error := (validate_csv missingColsDf).2,
         total := 0, imported := 0, failed := 0, unmapped_surnames := [],
         errors := [] },
       [sampleVoter], [], []) :=
  claim_c5_invalid_file_fast_fail [] none none "bad.csv" missingColsDf
    [sampleVoter] [] (by decide)

/-! ## Claim C7 -/

/-- Counterexample for C7: the claim says a failed chunk job is retried
automatically with exponential backoff, but the decorator of
`import_voters_csv_chunk` sets `autoretry_for=()` and `max_retries: 0`, so no
exception type is ever retried. -/
theorem claim_c7_counterexample_no_retries :
    ¬ specChunkRetryPolicy chunkTaskRetryConfig := by
  intro h
  have h1 := h.1 "OperationalError"
  simp [automaticRetries, chunkTaskRetryConfig] at h1

/-- Claim C7 as amended: a failed chunk job is not retried automatically at
all — the task is configured with an empty `autoretry_for` tuple,
`max_retries` 0 and no backoff, so a failing batch fails permanently on its
first failure. -/
theorem claim_c7_amended_zero_retry_budget :
    (∀ excType : String,
      automaticRetries chunkTaskRetryConfig excType = 0) ∧
    chunkTaskRetryConfig.max_retries = 0 ∧
    chunkTaskRetryConfig.autoretry_for = [] ∧
    chunkTaskRetryConfig.retry_backoff = false := by
  refine ⟨fun e => ?_, rfl, rfl, rfl⟩
  simp [automaticRetries, chunkTaskRetryConfig]

/-! ## Claim C10 -/

/-- Claim C10: for every CSV that passes file-level validation, the returned
counts partition the rows — each row increments exactly one of the imported
or failed counters, so `imported + failed = total` and `total` is the file's
row count in the success result. -/
theorem claim_c10_counters_partition (m : List (String × String))
    (pOv cOv : Option String) (fn : String) (df : Df) (store : List Voter)
    (ledger : List UploadHistory) (h : (validate_csv df).1 = true) :
    (process m pOv cOv fn df store ledger).1.success = true ∧
    (process m pOv cOv fn df store ledger).1.imported +
        (process m pOv cOv fn df store ledger).1.failed =
      (process m pOv cOv fn df store ledger).1.total ∧
    (process m pOv cOv fn df store ledger).1.total = df.rows.length := by
  rcases hval : validate_csv df with ⟨b, msg⟩
  cases b
  · rw [hval] at h
    simp at h
  · have hc := processRows_counts m pOv cOv df.rows.enum (initState store)
    simp only [initState, List.enum_length] at hc
    refine ⟨by simp [process, hval], ?_, by simp [process, hval]⟩
    simp [process, hval, initState]
    omega

/-- Witness for C10 at a concrete two-row file with one failing row. -/
theorem claim_c10_witness :
    (process [] none none "f.csv" mixedDf [] []).1.success = true ∧
    (process [] none none "f.csv" mixedDf [] []).1.imported +
        (process [] none none "f.csv" mixedDf [] []).1.failed =
      (process [] none none "f.csv" mixedDf [] []).1.total ∧
    (process [] none none "f.csv" mixedDf [] []).1.total = 2 := by
  have h := claim_c10_counters_partition [] none none "f.csv" mixedDf [] []
    (by decide)
  exact ⟨h.1, h.2.1, h.2.2.trans (by decide)⟩

/-! ## Claim C9 -/

/-- Claim C9: caste resolution never raises (the embedding is a total
function): an empty surname resolves to `unknown`, a surname with no active
mapping resolves to `unknown` (inactive mappings are ignored), and every
surname of a processed row that resolved to `unknown` during a run appears in
that run's unresolved-surname set. -/
theorem claim_c9_unknown_resolution :
    (∀ m : List (String × String), get_caste_group m "" = "unknown") ∧
    (∀ (db : List SurnameMapping) (s : String),
      (∀ mp ∈ db, mp.surname = s → mp.is_active = false) →
      get_caste_group (loadMappings db) s = "unknown") ∧
    (∀ (m : List (String × String)) (pOv cOv : Option String) (fn : String)
      (df : Df) (store : List Voter) (ledger : List UploadHistory) (r : Row),
      r ∈ df.rows → (validate_csv df).1 = true →
      (pyIntCell r.age).isSome = true → rowCaste m r = "unknown" →
      rowSurname r ∈
        (process m pOv cOv fn df store ledger).1.unmapped_surnames) := by
  refine ⟨fun m => rfl, fun db s h => ?_, ?_⟩
  · have hfind : (loadMappings db).find? (fun p => p.1 = s) = none := by
      rw [List.find?_eq_none]
      rintro ⟨a, b⟩ hab
      simp only [decide_eq_true_eq]
      intro hps
      rcases List.mem_map.mp hab with ⟨mp, hmp, heq⟩
      have hps' : mp.surname = s := (congrArg Prod.fst heq).trans hps
      have hact := (List.mem_filter.mp hmp).2
      rw [h mp (List.mem_filter.mp hmp).1 hps'] at hact
      exact absurd hact (by simp)
    by_cases hs : s = ""
    · simp [get_caste_group, hs]
    · simp [get_caste_group, hs, dictGet, casteScan, hfind]
  · intro m pOv cOv fn df store ledger r hr hval hage hcaste
    rcases hvv : validate_csv df with ⟨b, msg⟩
    cases b
    · rw [hvv] at hval
      simp at hval
    · simp only [process, hvv]
      rcases List.mem_map.mp ((List.enum_map_snd df.rows) ▸ hr) with
        ⟨p, hp, hsnd⟩
      have := processRows_unmapped_adds m pOv cOv df.rows.enum
        (initState store) p hp (by rw [hsnd]; exact hage)
        (by rw [hsnd]; exact hcaste)
      rw [hsnd] at this
      exact this

/-- Witness for C9: concrete instances of all three conjuncts — the surname
of the spec's example row has no mapping, resolves to `unknown`, and shows up
in the run's unresolved set. -/
theorem claim_c9_witness :
    get_caste_group [] "" = "unknown" ∧
    get_caste_group
        (loadMappings [⟨"ज्ञातनभएको", "other", false⟩]) "ज्ञातनभएको" =
      "unknown" ∧
    rowSurname sampleRow ∈
      (process [] none none "f.csv" oneRowDf [] []).1.unmapped_surnames := by
  refine ⟨claim_c9_unknown_resolution.1 [], ?_, ?_⟩
  · exact claim_c9_unknown_resolution.2.1 [⟨"ज्ञातनभएको", "other", false⟩]
      "ज्ञातनभएको" (by decide)
  · exact claim_c9_unknown_resolution.2.2 [] none none "f.csv" oneRowDf [] []
      sampleRow (by decide) (by decide) (by decide) (by decide)

/-! ## Claim C1 -/

/-- Claim C1: batch processing is idempotent by natural key — for every batch
of valid rows, after one run every row's voter id is present exactly once in
the store, and an identical second run leaves the set of persisted ids
unchanged (records are updated in place, never duplicated). -/
theorem claim_c1_batch_idempotent_by_voter_id (m : List (String × String))
    (pOv cOv : Option String) (batch : List Row) (store : List Voter)
    (hnd : (ids store).Nodup) (hv : ∀ r ∈ batch, validRowB r = true) :
    ids (runBatch m pOv cOv batch (runBatch m pOv cOv batch store)) =
      ids (runBatch m pOv cOv batch store) ∧
    (ids (runBatch m pOv cOv batch store)).Nodup ∧
    (∀ r ∈ batch,
      (ids (runBatch m pOv cOv batch store)).count (rowVid r) = 1 ∧
      (ids (runBatch m pOv cOv batch
        (runBatch m pOv cOv batch store))).count (rowVid r) = 1) := by
  have hv' : ∀ p ∈ batch.enum, validRowB p.2 = true :=
    fun p hp => hv p.2 (snd_mem_of_mem_enum hp)
  have hstable :
      ids (runBatch m pOv cOv batch (runBatch m pOv cOv batch store)) =
        ids (runBatch m pOv cOv batch store) := by
    unfold runBatch
    apply processRows_ids_stable
    intro p hp
    exact processRows_mem_vid m pOv cOv batch.enum (initState store) p hp
      (hv' p hp)
  have hnodup : (ids (runBatch m pOv cOv batch store)).Nodup :=
    processRows_nodup m pOv cOv batch.enum (initState store) hnd
  refine ⟨hstable, hnodup, fun r hr => ?_⟩
  rcases List.mem_map.mp ((List.enum_map_snd batch) ▸ hr) with ⟨p, hp, hsnd⟩
  have hmem : rowVid r ∈ ids (runBatch m pOv cOv batch store) := by
    rw [← hsnd]
    exact processRows_mem_vid m pOv cOv batch.enum (initState store) p hp
      (hv' p hp)
  have h1 := List.count_eq_one_of_mem hnodup hmem
  refine ⟨h1, ?_⟩
  rw [hstable]
  exact h1

/-- Witness for C1 at a concrete one-row batch over an empty store. -/
theorem claim_c1_witness :
    ids (runBatch [] none none [sampleRow]
        (runBatch [] none none [sampleRow] [])) =
      ids (runBatch [] none none [sampleRow] []) ∧
    (ids (runBatch [] none none [sampleRow] [])).Nodup ∧
    (∀ r ∈ [sampleRow],
      (ids (runBatch [] none none [sampleRow] [])).count (rowVid r) = 1 ∧
      (ids (runBatch [] none none [sampleRow]
        (runBatch [] none none [sampleRow] []))).count (rowVid r) = 1) :=
  claim_c1_batch_idempotent_by_voter_id [] none none [sampleRow] []
    (by decide) (by decide)

/-! ## Chunking lemmas (`import_voters_csv`) -/

theorem ceilCount_pos (B n : Nat) (hB : 0 < B) (hn : 0 < n) :
    (n + B - 1) / B = ((n - B) + B - 1) / B + 1 := by
  rcases le_or_lt n B with h | h
  · rw [Nat.sub_eq_zero_of_le h]
    have h2 : (0 + B - 1) / B = 0 := Nat.div_eq_of_lt (by omega)
    rw [h2]
    have hle : 1 ≤ (n + B - 1) / B :=
      (Nat.le_div_iff_mul_le hB).mpr (by omega)
    have hlt : (n + B - 1) / B < 2 :=
      (Nat.div_lt_iff_lt_mul hB).mpr (by omega)
    omega
  · have e1 : n + B - 1 = (n - B + (B - 1)) + B := by omega
    have e2 : n - B + B - 1 = n - B + (B - 1) := by omega
    rw [e1, Nat.add_div_right _ hB, e2]

theorem chunkList_nil {α : Type} (B : Nat) (hB : 0 < B) :
    chunkList ([] : List α) B = [] := by
  have h0 : (B - 1) / B = 0 := Nat.div_eq_of_lt (by omega)
  simp [chunkList, pyRange, h0]

theorem chunkList_cons {α : Type} (B : Nat) (hB : 0 < B) (l : List α)
    (hl : l ≠ []) :
    chunkList l B = l.take B :: chunkList (l.drop B) B := by
  have hn : 0 < l.length := List.length_pos.mpr hl
  unfold chunkList pyRange
  rw [List.length_drop]
  simp only [Nat.sub_zero]
  rw [ceilCount_pos B l.length hB hn, List.range_succ_eq_map]
  simp only [List.map_cons, List.map_map]
  congr 1
  · simp
  · apply List.map_congr_left
    intro k _
    simp only [Function.comp]
    rw [List.drop_drop]
    have e : 0 + Nat.succ k * B = B + (0 + k * B) := by
      rw [Nat.succ_mul]
      generalize k * B = t
      omega
    rw [e]

theorem chunkList_length {α : Type} (l : List α) (B : Nat) :
    (chunkList l B).length = (l.length + B - 1) / B := by
  simp [chunkList, pyRange]

theorem chunkList_size_le {α : Type} (l : List α) (B : Nat) (c : List α)
    (hc : c ∈ chunkList l B) : c.length ≤ B := by
  rcases List.mem_map.mp hc with ⟨i, _, rfl⟩
  exact (l.drop i).length_take_le B

theorem chunkList_flatten_aux {α : Type} (B : Nat) (hB : 0 < B) :
    ∀ (n : Nat) (l : List α), l.length ≤ n → (chunkList l B).flatten = l := by
  intro n
  induction n with
  | zero =>
    intro l hl
    have : l = [] := List.eq_nil_of_length_eq_zero (by omega)
    subst this
    rw [chunkList_nil B hB]
    rfl
  | succ n ih =>
    intro l hl
    rcases eq_or_ne l [] with rfl | hne
    · rw [chunkList_nil B hB]
      rfl
    · rw [chunkList_cons B hB l hne, List.flatten_cons,
        ih (l.drop B) ?_, List.take_append_drop]
      have hpos : 0 < l.length := List.length_pos.mpr hne
      rw [List.length_drop]
      omega

theorem chunkList_flatten {α : Type} (B : Nat) (hB : 0 < B) (l : List α) :
    (chunkList l B).flatten = l :=
  chunkList_flatten_aux B hB l.length l le_rfl

theorem chunkList_map_length {α : Type} (l : List α) (B : Nat) :
    (chunkList l B).map List.length =
      (pyRange 0 l.length B).map (fun i => min B (l.length - i)) := by
  simp only [chunkList, List.map_map]
  apply List.map_congr_left
  intro i _
  simp [List.length_take, List.length_drop]

/-! ## Claim C6 -/

/-- Claim C6 (code bug evidence): the claim — and the spec — say the
file-level orchestrator dispatches exactly `⌈n/1000⌉` batch jobs (11 for a
10,500-row file).  The task's own body contains exactly that chunking logic,
but its first statement `rows = CSVProcessor.read_rows(file_path)` calls a
method defined nowhere in the repository, so every invocation raises
`AttributeError` and dispatches zero jobs.  The theorem records both facts:
`import_voters_csv` errors on every input because `read_rows` is not among
the class's attributes, while the (unreachable) chunking generator it would
then run produces exactly the claimed batches — `⌈n/1000⌉` of them, each of
at most 1,000 rows, concatenating in order to the original row sequence,
eleven (ten of 1,000, one of 500) for 10,500 rows. -/
theorem claim_c6_bug_orchestrator_attribute_error :
    (∀ (fp pv cn : String) (uid : Option Nat) (fileRows : List Row),
      import_voters_csv fp fileRows pv cn uid =
        Except.error
          "AttributeError: type object 'CSVProcessor' has no attribute 'read_rows'") ∧
    CSVProcessorMethods.contains "read_rows" = false ∧
    (∀ rows : List Row,
      (chunkList rows BATCH_SIZE).length =
        (rows.length + BATCH_SIZE - 1) / BATCH_SIZE ∧
      ((chunkList rows BATCH_SIZE).map List.length).all
        (fun k => k ≤ BATCH_SIZE) = true ∧
      (chunkList rows BATCH_SIZE).flatten = rows) ∧
    (chunkList (List.replicate 10500 sampleRow) BATCH_SIZE).length = 11 ∧
    (chunkList (List.replicate 10500 sampleRow) BATCH_SIZE).map List.length =
      List.replicate 10 1000 ++ [500] := by
  refine ⟨fun fp pv cn uid fileRows => rfl, rfl, ?_, ?_, ?_⟩
  · intro rows
    refine ⟨chunkList_length rows BATCH_SIZE, ?_,
      chunkList_flatten BATCH_SIZE (by norm_num [BATCH_SIZE]) rows⟩
    rw [List.all_eq_true]
    intro x hx
    rcases List.mem_map.mp hx with ⟨c, hc, rfl⟩
    simpa using chunkList_size_le rows BATCH_SIZE c hc
  · simp only [chunkList_length, List.length_replicate]
    norm_num [BATCH_SIZE]
  · rw [chunkList_map_length, List.length_replicate]
    decide

/-! ## Trace-counting lemmas -/

theorem countBulkInserts_append (t1 t2 : List DbOp) :
    countBulkInserts (t1 ++ t2) = countBulkInserts t1 + countBulkInserts t2 := by
  simp [countBulkInserts, List.filter_append]

theorem countBulkUpdates_append (t1 t2 : List DbOp) :
    countBulkUpdates (t1 ++ t2) = countBulkUpdates t1 + countBulkUpdates t2 := by
  simp [countBulkUpdates, List.filter_append]

theorem countRowUpserts_append (t1 t2 : List DbOp) :
    countRowUpserts (t1 ++ t2) = countRowUpserts t1 + countRowUpserts t2 := by
  simp [countRowUpserts, List.filter_append]

theorem countBulkInserts_upserts (ops : List DbOp)
    (hops : ∀ op ∈ ops, ∃ vid, op = DbOp.upsert vid) :
    countBulkInserts ops = 0 := by
  induction ops with
  | nil => rfl
  | cons op rest ih =>
    rcases hops op (List.mem_cons_self op rest) with ⟨vid, rfl⟩
    simp only [countBulkInserts, List.filter_cons]
    exact ih (fun o ho => hops o (List.mem_cons_of_mem _ ho))

theorem countBulkUpdates_upserts (ops : List DbOp)
    (hops : ∀ op ∈ ops, ∃ vid, op = DbOp.upsert vid) :
    countBulkUpdates ops = 0 := by
  induction ops with
  | nil => rfl
  | cons op rest ih =>
    rcases hops op (List.mem_cons_self op rest) with ⟨vid, rfl⟩
    simp only [countBulkUpdates, List.filter_cons]
    exact ih (fun o ho => hops o (List.mem_cons_of_mem _ ho))

theorem countRowUpserts_upserts (ops : List DbOp)
    (hops : ∀ op ∈ ops, ∃ vid, op = DbOp.upsert vid) :
    countRowUpserts ops = ops.length := by
  induction ops with
  | nil => rfl
  | cons op rest ih =>
    rcases hops op (List.mem_cons_self op rest) with ⟨vid, rfl⟩
    have ihr := ih (fun o ho => hops o (List.mem_cons_of_mem _ ho))
    simp only [countRowUpserts] at ihr ⊢
    simp [List.filter_cons, ihr]

/-! ## Claim C3 -/

/-- Counterexample for C3: on a two-fresh-row batch over an empty store the
commit inserts two records but the DB trace contains zero bulk-insert calls
(and two per-row upsert calls), refuting "inserts go through one bulk-insert
call". -/
theorem claim_c3_counterexample_no_bulk_calls :
    ((process [] none none "two.csv" twoRowDf [] []).2.1).length = 2 ∧
    countRowUpserts ((process [] none none "two.csv" twoRowDf [] []).2.2.2) =
      2 ∧
    countBulkInserts ((process [] none none "two.csv" twoRowDf [] []).2.2.2) =
      0 ∧
    ¬ specBulkCommitShape
        ((process [] none none "two.csv" twoRowDf [] []).2.2.2)
        ((process [] none none "two.csv" twoRowDf [] []).2.1).length := by
  refine ⟨by decide, by decide, by decide, ?_⟩
  intro hspec
  have h2 := hspec (by decide)
  exact absurd h2.1 (by decide)

/-- Claim C3 as amended: the batch's row writes all happen between a single
`begin_txn`/`commit_txn` pair (one atomic transaction), but through one
per-row upsert call per imported row — the trace contains no bulk-insert and
no bulk-update call at all. -/
theorem claim_c3_amended_per_row_upserts_in_one_transaction
    (m : List (String × String)) (pOv cOv : Option String) (fn : String)
    (df : Df) (store : List Voter) (ledger : List UploadHistory)
    (h : (validate_csv df).1 = true) :
    ∃ ops : List DbOp,
      (process m pOv cOv fn df store ledger).2.2.2 =
        DbOp.begin_txn :: ops ++ [DbOp.commit_txn] ∧
      (∀ op ∈ ops, ∃ vid, op = DbOp.upsert vid) ∧
      ops.length = (process m pOv cOv fn df store ledger).1.imported ∧
      countBulkInserts ((process m pOv cOv fn df store ledger).2.2.2) = 0 ∧
      countBulkUpdates ((process m pOv cOv fn df store ledger).2.2.2) = 0 := by
  rcases hval : validate_csv df with ⟨b, msg⟩
  cases b
  · rw [hval] at h
    simp at h
  · rcases processRows_trace_imported m pOv cOv df.rows.enum
      (initState store) with ⟨ops, ht, hops, hi⟩
    have htr : (process m pOv cOv fn df store ledger).2.2.2 =
        DbOp.begin_txn :: ops ++ [DbOp.commit_txn] := by
      simp only [process, hval]
      rw [ht]
      simp [initState]
    refine ⟨ops, htr, hops, ?_, ?_, ?_⟩
    · simp only [process, hval]
      rw [hi]
      simp [initState]
    · rw [htr]
      have : DbOp.begin_txn :: ops ++ [DbOp.commit_txn] =
          [DbOp.begin_txn] ++ ops ++ [DbOp.commit_txn] := rfl
      rw [this, countBulkInserts_append, countBulkInserts_append,
        countBulkInserts_upserts ops hops]
      rfl
    · rw [htr]
      have : DbOp.begin_txn :: ops ++ [DbOp.commit_txn] =
          [DbOp.begin_txn] ++ ops ++ [DbOp.commit_txn] := rfl
      rw [this, countBulkUpdates_append, countBulkUpdates_append,
        countBulkUpdates_upserts ops hops]
      rfl

/-- Witness for the amended C3 at a concrete one-row file. -/
theorem claim_c3_witness :
    ∃ ops : List DbOp,
      (process [] none none "f.csv" oneRowDf [] []).2.2.2 =
        DbOp.begin_txn :: ops ++ [DbOp.commit_txn] ∧
      (∀ op ∈ ops, ∃ vid, op = DbOp.upsert vid) ∧
      ops.length = (process [] none none "f.csv" oneRowDf [] []).1.imported ∧
      countBulkInserts ((process [] none none "f.csv" oneRowDf [] []).2.2.2) =
        0 ∧
      countBulkUpdates ((process [] none none "f.csv" oneRowDf [] []).2.2.2) =
        0 :=
  claim_c3_amended_per_row_upserts_in_one_transaction [] none none "f.csv"
    oneRowDf [] [] (by decide)

/-! ## Tokenizer lemmas (`splitWS`, `joinSp`) -/

theorem splitWS_nil : splitWS [] = [] := rfl

theorem splitWS_cons_space (c : Char) (l : List Char)
    (hc : isPySpace c = true) : splitWS (c :: l) = splitWS l := by
  simp [splitWS, splitWSAux, hc]

theorem splitWSAux_acc (l : List Char) : ∀ acc : List Char, acc ≠ [] →
    splitWSAux l acc =
      (acc.reverse ++ l.takeWhile (fun c => !isPySpace c)) ::
        splitWS (l.dropWhile (fun c => !isPySpace c)) := by
  induction l with
  | nil =>
    intro acc hacc
    have he : acc.isEmpty = false := by
      cases acc
      · exact absurd rfl hacc
      · rfl
    simp [splitWSAux, he, splitWS]
  | cons c cs ih =>
    intro acc hacc
    have he : acc.isEmpty = false := by
      cases acc
      · exact absurd rfl hacc
      · rfl
    by_cases hc : isPySpace c = true
    · simp [splitWS, splitWSAux, hc, he]
    · have hc' : isPySpace c = false := by
        cases h : isPySpace c
        · rfl
        · exact absurd h hc
      simp only [splitWSAux, hc', Bool.false_eq_true, if_false]
      rw [ih (c :: acc) (by simp)]
      simp [hc', List.takeWhile_cons, List.dropWhile_cons]

theorem splitWS_cons_nonspace (c : Char) (l : List Char)
    (hc : isPySpace c = false) :
    splitWS (c :: l) =
      ((c :: l).takeWhile (fun x => !isPySpace x)) ::
        splitWS ((c :: l).dropWhile (fun x => !isPySpace x)) := by
  have h1 : splitWS (c :: l) = splitWSAux l [c] := by
    simp [splitWS, splitWSAux, hc]
  rw [h1, splitWSAux_acc l [c] (by simp)]
  simp [List.takeWhile_cons, List.dropWhile_cons, hc]

theorem splitWS_tokens_aux :
    ∀ (n : Nat) (l : List Char), l.length ≤ n →
      ∀ t ∈ splitWS l, t ≠ [] ∧ ∀ c ∈ t, isPySpace c = false := by
  intro n
  induction n with
  | zero =>
    intro l hl t ht
    have : l = [] := List.eq_nil_of_length_eq_zero (by omega)
    subst this
    simp [splitWS_nil] at ht
  | succ n ih =>
    intro l hl t ht
    cases l with
    | nil => simp [splitWS_nil] at ht
    | cons c cs =>
      by_cases hc : isPySpace c = true
      · rw [splitWS_cons_space c cs hc] at ht
        exact ih cs (by simpa using Nat.le_of_succ_le_succ hl) t ht
      · have hc' : isPySpace c = false := by
          cases h : isPySpace c
          · rfl
          · exact absurd h hc
        rw [splitWS_cons_nonspace c cs hc'] at ht
        rcases List.mem_cons.mp ht with rfl | hrest
        · constructor
          · simp [List.takeWhile_cons, hc']
          · intro x hx
            have := List.mem_takeWhile_imp hx
            simpa using this
        · have hlen : ((c :: cs).dropWhile (fun x => !isPySpace x)).length ≤ n := by
            have h1 : (c :: cs).dropWhile (fun x => !isPySpace x) =
                cs.dropWhile (fun x => !isPySpace x) := by
              simp [List.dropWhile_cons, hc']
            rw [h1]
            have h2 := List.Sublist.length_le
              (List.dropWhile_sublist (l := cs) (fun x => !isPySpace x))
            simp only [List.length_cons] at hl
            omega
          exact ih _ hlen t hrest

theorem splitWS_tokens (l : List Char) (t : List Char) (ht : t ∈ splitWS l) :
    t ≠ [] ∧ ∀ c ∈ t, isPySpace c = false :=
  splitWS_tokens_aux l.length l le_rfl t ht

theorem takeWhile_all (p : Char → Bool) :
    ∀ t : List Char, (∀ c ∈ t, p c = true) →
      t.takeWhile p = t ∧ t.dropWhile p = [] := by
  intro t
  induction t with
  | nil => intro _; exact ⟨rfl, rfl⟩
  | cons c cs ih =>
    intro h
    have hc := h c (List.mem_cons_self c cs)
    have := ih (fun x hx => h x (List.mem_cons_of_mem c hx))
    simp [List.takeWhile_cons, List.dropWhile_cons, hc, this.1, this.2]

theorem takeWhile_all_append (p : Char → Bool) :
    ∀ (t : List Char) (r : Char) (rs : List Char),
      (∀ c ∈ t, p c = true) → p r = false →
      (t ++ r :: rs).takeWhile p = t ∧ (t ++ r :: rs).dropWhile p = r :: rs := by
  intro t
  induction t with
  | nil =>
    intro r rs _ hr
    simp [List.takeWhile_cons, List.dropWhile_cons, hr]
  | cons c cs ih =>
    intro r rs h hr
    have hc := h c (List.mem_cons_self c cs)
    have := ih r rs (fun x hx => h x (List.mem_cons_of_mem c hx)) hr
    simp [List.takeWhile_cons, List.dropWhile_cons, hc, this.1, this.2]

theorem joinSp_pair (t t2 : List Char) (ts : List (List Char)) :
    joinSp (t :: t2 :: ts) = t ++ ' ' :: joinSp (t2 :: ts) := rfl

theorem splitWS_joinSp :
    ∀ ts : List (List Char),
      (∀ t ∈ ts, t ≠ [] ∧ ∀ c ∈ t, isPySpace c = false) →
      splitWS (joinSp ts) = ts := by
  intro ts
  induction ts with
  | nil => intro _; rfl
  | cons t ts' ih =>
    intro h
    rcases h t (List.mem_cons_self t ts') with ⟨hne, hchars⟩
    rcases t with _ | ⟨c, t'⟩
    · exact absurd rfl hne
    have hc : isPySpace c = false := hchars c (List.mem_cons_self c t')
    have hchars' : ∀ x ∈ t', isPySpace x = false :=
      fun x hx => hchars x (List.mem_cons_of_mem c hx)
    cases ts' with
    | nil =>
      show splitWS (c :: t') = [c :: t']
      rw [splitWS_cons_nonspace c t' hc]
      have htw := takeWhile_all (fun x => !isPySpace x) (c :: t')
        (by intro x hx
            rcases List.mem_cons.mp hx with rfl | hx'
            · simp [hc]
            · simp [hchars' x hx'])
      rw [htw.1, htw.2, splitWS_nil]
    | cons t2 ts'' =>
      rw [joinSp_pair]
      have hstep : (c :: t') ++ ' ' :: joinSp (t2 :: ts'') =
          c :: (t' ++ ' ' :: joinSp (t2 :: ts'')) := rfl
      rw [hstep, splitWS_cons_nonspace c _ hc]
      have htw := takeWhile_all_append (fun x => !isPySpace x) (c :: t') ' '
        (joinSp (t2 :: ts''))
        (by intro x hx
            rcases List.mem_cons.mp hx with rfl | hx'
            · simp [hc]
            · simp [hchars' x hx'])
        (by simp [isPySpace])
      rw [show c :: (t' ++ ' ' :: joinSp (t2 :: ts'')) =
          (c :: t') ++ ' ' :: joinSp (t2 :: ts'') from rfl]
      rw [htw.1, htw.2]
      rw [splitWS_cons_space ' ' _ (by simp [isPySpace])]
      rw [ih (fun x hx => h x (List.mem_cons_of_mem (c :: t') hx))]

theorem extractSurnameL_eq (l : List Char) :
    extractSurnameL l =
      if (joinSp (splitWS l)).isEmpty then []
      else
        match splitWS (joinSp (splitWS l)) with
        | [] => []
        | [p] => p
        | parts => pyRstripPunct (parts.getLastD []) := rfl

theorem extract_surname_single (s : String) (t : List Char)
    (h : splitWS s.data = [t]) : extract_surname (some s) = String.mk t := by
  have htok := splitWS_tokens s.data t (by rw [h]; exact List.mem_singleton.mpr rfl)
  have hsne : s ≠ "" := by
    intro hs
    subst hs
    rw [show ("" : String).data = [] from rfl, splitWS_nil] at h
    simp at h
  have htne : t.isEmpty = false := by
    rcases t with _ | ⟨x, xs⟩
    · exact absurd rfl htok.1
    · rfl
  have hsp : splitWS t = [t] := by
    have := splitWS_joinSp [t] (by
      intro x hx
      rw [List.mem_singleton] at hx
      subst hx
      exact htok)
    simpa [joinSp] using this
  show (if s = "" then "" else String.mk (extractSurnameL s.data)) = String.mk t
  rw [if_neg hsne]
  congr 1
  rw [extractSurnameL_eq, h, show joinSp [t] = t from rfl, htne, hsp]
  rfl

theorem extract_surname_multi (s : String) (ts : List (List Char))
    (t : List Char) (h : splitWS s.data = ts ++ [t]) (hne : ts ≠ []) :
    extract_surname (some s) = String.mk (pyRstripPunct t) := by
  rcases ts with _ | ⟨t0, ts'⟩
  · exact absurd rfl hne
  obtain ⟨r1, rest, hrr⟩ : ∃ r1 rest, ts' ++ [t] = r1 :: rest := by
    cases ts' with
    | nil => exact ⟨t, [], rfl⟩
    | cons a as => exact ⟨a, as ++ [t], rfl⟩
  have hList : (t0 :: ts') ++ [t] = t0 :: r1 :: rest := by
    simp only [List.cons_append, hrr]
  have hsne : s ≠ "" := by
    intro hs
    subst hs
    rw [show ("" : String).data = [] from rfl, splitWS_nil] at h
    simp at h
  have htoks : ∀ x ∈ (t0 :: ts') ++ [t],
      x ≠ [] ∧ ∀ c ∈ x, isPySpace c = false :=
    fun x hx => splitWS_tokens s.data x (by rw [h]; exact hx)
  have hsp2 : splitWS (joinSp ((t0 :: ts') ++ [t])) = (t0 :: ts') ++ [t] :=
    splitWS_joinSp _ htoks
  have hjoinne : (joinSp (t0 :: r1 :: rest)).isEmpty = false := by
    rcases hcase : t0 ++ ' ' :: joinSp (r1 :: rest) with _ | ⟨y, ys⟩
    · exact absurd hcase (by cases t0 <;> simp)
    · rw [joinSp_pair, hcase]
      rfl
  rw [hList] at hsp2
  show (if s = "" then "" else String.mk (extractSurnameL s.data)) =
    String.mk (pyRstripPunct t)
  rw [if_neg hsne]
  congr 1
  rw [extractSurnameL_eq, h, hList, hjoinne, hsp2]
  show pyRstripPunct ((t0 :: r1 :: rest).getLastD []) = pyRstripPunct t
  congr 1
  rw [← hList]
  exact List.getLastD_concat _ _ _

/-! ## Claim C8 -/

/-- Claim C8: `extract_surname` collapses whitespace runs and splits on them
(the token list `splitWS`), returns the whole (cleaned) string when it has
one token, otherwise returns the last token with trailing commas, semicolons,
colons and exclamation marks stripped while periods are preserved, and
returns the empty string for empty or non-string input; including the spec's
three concrete examples. -/
theorem claim_c8_extract_surname :
    (extract_surname none = "" ∧ extract_surname (some "") = "") ∧
    (∀ (s : String) (t : List Char), splitWS s.data = [t] →
      extract_surname (some s) = String.mk t) ∧
    (∀ (s : String) (ts : List (List Char)) (t : List Char),
      splitWS s.data = ts ++ [t] → ts ≠ [] →
      extract_surname (some s) = String.mk (pyRstripPunct t)) ∧
    (isTrailPunct ',' = true ∧ isTrailPunct ';' = true ∧
      isTrailPunct ':' = true ∧ isTrailPunct '!' = true ∧
      isTrailPunct '.' = false) ∧
    extract_surname (some "राम बहादुर थापा") = "थापा" ∧
    extract_surname (some "सीता") = "सीता" ∧
    extract_surname (some "अनिता के.सी.") = "के.सी." :=
  ⟨⟨rfl, rfl⟩, extract_surname_single, extract_surname_multi,
   ⟨rfl, rfl, rfl, rfl, rfl⟩, by decide, by decide, by decide⟩

/-- Witness for C8: the single-token and multi-token clauses instantiated at
concrete inputs, with each hypothesis discharged by computation. -/
theorem claim_c8_witness :
    extract_surname (some "Sita") = String.mk ['S', 'i', 't', 'a'] ∧
    extract_surname (some "Ram  Thapa,") =
      String.mk (pyRstripPunct ['T', 'h', 'a', 'p', 'a', ',']) := by
  constructor
  · exact claim_c8_extract_surname.2.1 "Sita" ['S', 'i', 't', 'a'] (by decide)
  · exact claim_c8_extract_surname.2.2.1 "Ram  Thapa," [['R', 'a', 'm']]
      ['T', 'h', 'a', 'p', 'a', ','] (by decide) (by decide)

end Voters
